import Mathlib

/-!
# bsv-channels — payment-channel core, shallow embedding

A shallow embedding of the two-party payment-channel core of the
`bsv-channels` repository: the `Channel` data model, the `ChannelManager`
state machine (`createChannel`, `acceptChannel`, `setFundingTx`,
`openChannel`, `createPayment`, `processPayment`, `closeChannel`,
`cancelChannel`), the durable store it writes through to, and the
multisig signing helpers.

The repository ships the managers' test-suites
(`src/channels/manager.test.ts`, `src/channels/integration.test.ts`,
`src/channels/multisig.test.ts`) and the export/plugin glue, but the
implementation modules themselves (`manager.js`, `storage.js`,
`multisig.js`, `types.js`) are not part of the source tree given here.
The definitions below are therefore modelled from the specification,
with the behaviour pinned down wherever the in-repo tests exercise it.
Amounts, balances and sequence numbers are JavaScript numbers used as
integers, embedded as `Int`; channel ids (opaque unique identifiers in
the source) are embedded as `Nat` allocated from a per-manager counter.
-/

namespace BsvChannels

/-- Modelled from the spec: channel lifecycle states
`pending | open | closing | disputed | closed` (spec §3, §4.2).
`open` is spelled `opened` because `open` is a Lean keyword. -/
inductive ChannelState where
  | pending
  | opened
  | closing
  | disputed
  | closed
  deriving DecidableEq, Repr

/-- Modelled from the spec: the error taxonomy of §7 —
capacity, state, insufficient-balance, sequence, signature, broadcast
and not-found errors. -/
inductive ChannelError where
  | capacityError
  | stateError
  | insufficientBalanceError
  | sequenceError
  | signatureError
  | broadcastError
  | notFoundError
  deriving DecidableEq, Repr

instance {ε α : Type} [DecidableEq ε] [DecidableEq α] :
    DecidableEq (Except ε α) := fun a b =>
  match a, b with
  | .error e1, .error e2 =>
      if h : e1 = e2 then .isTrue (by rw [h]) else .isFalse (by simp [h])
  | .error _, .ok _ => .isFalse (by simp)
  | .ok _, .error _ => .isFalse (by simp)
  | .ok v1, .ok v2 =>
      if h : v1 = v2 then .isTrue (by rw [h]) else .isFalse (by simp [h])

/-- Modelled from the spec: the `Channel` record of §3 (one bilateral
channel instance, from the owning party's own perspective). -/
structure Channel where
  id : Nat
  localPeerId : String
  remotePeerId : String
  localPubKey : String
  remotePubKey : String
  state : ChannelState
  capacity : Int
  localBalance : Int
  remoteBalance : Int
  sequenceNumber : Int
  fundingTxId : Option String
  fundingOutputIndex : Option Int
  nLockTime : Int
  createdAt : Int
  updatedAt : Int
  deriving DecidableEq, Repr

/-- Payment direction of a ledger row (`sent | received`, spec §3). -/
inductive Direction where
  | sent
  | received
  deriving DecidableEq, Repr

/-- Modelled from the spec: one append-only ledger row per applied
payment (spec §3, "Payment (ledger record)"). -/
structure PaymentRow where
  channelId : Nat
  amount : Int
  sequence : Int
  direction : Direction
  signature : String
  timestamp : Int
  deriving DecidableEq, Repr

/-- Modelled from the spec and `manager.test.ts`: the signed payment
descriptor returned by `createPayment` and consumed by
`processPayment` (fields as in the tests' incoming-payment literals). -/
structure PaymentMsg where
  channelId : Nat
  amount : Int
  newSequenceNumber : Int
  newLocalBalance : Int
  newRemoteBalance : Int
  signature : String
  timestamp : Int
  deriving DecidableEq, Repr

/-- Modelled from the spec: the durable Channel Store (§2, §6) — a
channel table keyed by id plus the append-only payment ledger. -/
structure Store where
  channels : List (Nat × Channel)
  payments : List PaymentRow
  deriving DecidableEq, Repr

/-- Manager configuration surface (spec §6): capacity bounds and the
default channel lifetime. -/
structure Config where
  minCapacity : Int
  maxCapacity : Int
  defaultLifetimeMs : Int
  deriving DecidableEq, Repr

/-- Modelled from the spec: a `ChannelManager` — its configuration, the
local party's identity, an id-allocation counter, the in-memory channel
map loaded at construction, and the durable store it writes through to
synchronously on every state transition (spec §2, §5). -/
structure ManagerState where
  cfg : Config
  localPeerId : String
  publicKey : String
  nextId : Nat
  channels : List (Nat × Channel)
  store : Store
  deriving DecidableEq, Repr

/-- Look a channel up by id in an association list. -/
def findCh : List (Nat × Channel) → Nat → Option Channel
  | [], _ => none
  | (k, c) :: rest, id => if k = id then some c else findCh rest id

/-- Insert or replace the channel stored under `id`. -/
def setCh : List (Nat × Channel) → Nat → Channel → List (Nat × Channel)
  | [], id, c => [(id, c)]
  | (k, c0) :: rest, id, c =>
      if k = id then (id, c) :: rest else (k, c0) :: setCh rest id c

/-- Write a channel record through to both the in-memory map and the
durable store, optionally appending a ledger row (spec §5: persistence
is committed atomically per state transition). -/
def ManagerState.putChannel (s : ManagerState) (key : Nat) (c : Channel)
    (row : Option PaymentRow) : ManagerState :=
  { s with
    channels := setCh s.channels key c
    store :=
      { channels := setCh s.store.channels key c
        payments := match row with
          | none => s.store.payments
          | some r => s.store.payments ++ [r] } }

/-- A fresh manager over an empty store. -/
def ManagerState.init (cfg : Config) (localPeerId publicKey : String) :
    ManagerState :=
  { cfg := cfg
    localPeerId := localPeerId
    publicKey := publicKey
    nextId := 0
    channels := []
    store := { channels := [], payments := [] } }

/-- Pure read `getChannel(id)` (spec §4.2). -/
def ManagerState.getChannel (s : ManagerState) (id : Nat) : Option Channel :=
  findCh s.channels id

namespace ChannelManager

/-- Modelled from the spec: `createChannel(remotePeerId, remotePubKey,
capacity, lifetimeMs?)` (spec §4.2) — validates
`minCapacity <= capacity <= maxCapacity`, else fails with a capacity
error; allocates an id, persists a `pending` channel with
`localBalance = capacity`, `remoteBalance = 0`, `sequenceNumber = 0`,
`nLockTime = now + lifetime`. -/
def createChannel (s : ManagerState) (remotePeerId remotePubKey : String)
    (capacity : Int) (now : Int) (lifetimeMs : Option Int) :
    Except ChannelError Channel × ManagerState :=
  if capacity < s.cfg.minCapacity ∨ s.cfg.maxCapacity < capacity then
    (.error .capacityError, s)
  else
    let c : Channel :=
      { id := s.nextId
        localPeerId := s.localPeerId
        remotePeerId := remotePeerId
        localPubKey := s.publicKey
        remotePubKey := remotePubKey
        state := .pending
        capacity := capacity
        localBalance := capacity
        remoteBalance := 0
        sequenceNumber := 0
        fundingTxId := none
        fundingOutputIndex := none
        nLockTime := now + lifetimeMs.getD s.cfg.defaultLifetimeMs
        createdAt := now
        updatedAt := now }
    (.ok c, { s.putChannel c.id c none with nextId := s.nextId + 1 })

/-- Modelled from the spec: `acceptChannel(id, localPeerId,
remotePeerId, remotePubKey, capacity, nLockTime)` (spec §4.2) — the
responder-side mirror of `createChannel`, persisted `pending` under the
proposer's id, with `localBalance = 0`, `remoteBalance = capacity`. -/
def acceptChannel (s : ManagerState) (id : Nat)
    (localPeerId remotePeerId remotePubKey : String)
    (capacity nLockTime now : Int) :
    Except ChannelError Channel × ManagerState :=
  let c : Channel :=
    { id := id
      localPeerId := localPeerId
      remotePeerId := remotePeerId
      localPubKey := s.publicKey
      remotePubKey := remotePubKey
      state := .pending
      capacity := capacity
      localBalance := 0
      remoteBalance := capacity
      sequenceNumber := 0
      fundingTxId := none
      fundingOutputIndex := none
      nLockTime := nLockTime
      createdAt := now
      updatedAt := now }
  (.ok c, s.putChannel id c none)

/-- Modelled from the spec: `setFundingTx(id, txid, outputIndex)`
(spec §4.2) — requires `pending`; attaches the funding reference
without changing the state. -/
def setFundingTx (s : ManagerState) (id : Nat) (txid : String)
    (outputIndex : Int) (now : Int) :
    Except ChannelError Channel × ManagerState :=
  match findCh s.channels id with
  | none => (.error .notFoundError, s)
  | some c =>
      if c.state ≠ .pending then (.error .stateError, s)
      else
        let c2 := { c with
          fundingTxId := some txid
          fundingOutputIndex := some outputIndex
          updatedAt := now }
        (.ok c2, s.putChannel id c2 none)

/-- Modelled from the spec: `openChannel(id)` (spec §4.2) — transitions
`pending → open`, failing with a state error on any other state.
The spec additionally says a funding reference must be present, but the
repository's own test (`manager.test.ts` 131–135) opens a pending
channel on which `setFundingTx` was never called and expects success,
so no funding-reference check is performed here. -/
def openChannel (s : ManagerState) (id : Nat) (now : Int) :
    Except ChannelError Channel × ManagerState :=
  match findCh s.channels id with
  | none => (.error .notFoundError, s)
  | some c =>
      if c.state ≠ .pending then (.error .stateError, s)
      else
        let c2 := { c with state := .opened, updatedAt := now }
        (.ok c2, s.putChannel id c2 none)

/-- The signature the manager attaches to an outgoing payment
descriptor, abstracting `signInput` over the corresponding commitment
transaction (spec §4.2: "builds and signs the corresponding
commitment"). -/
def mkSignature (id : Nat) (seq lb rb : Int) : String :=
  "commit:" ++ toString id ++ ":" ++ toString seq ++ ":" ++
    toString lb ++ ":" ++ toString rb

/-- Modelled from the spec: `createPayment(id, amount)` (spec §4.2) —
requires `open`; fails with an insufficient-balance error if
`amount > localBalance` (no state mutation on failure); computes
`newSequenceNumber = sequenceNumber + 1`,
`newLocalBalance = localBalance - amount`,
`newRemoteBalance = remoteBalance + amount`; persists the new
balances/sequence together with a `sent` ledger row and returns the
signed payment descriptor. -/
def createPayment (s : ManagerState) (id : Nat) (amount : Int)
    (now : Int) : Except ChannelError PaymentMsg × ManagerState :=
  match findCh s.channels id with
  | none => (.error .notFoundError, s)
  | some c =>
      if c.state ≠ .opened then (.error .stateError, s)
      else if c.localBalance < amount then
        (.error .insufficientBalanceError, s)
      else
        let newSeq := c.sequenceNumber + 1
        let newLocal := c.localBalance - amount
        let newRemote := c.remoteBalance + amount
        let sig := mkSignature id newSeq newLocal newRemote
        let msg : PaymentMsg :=
          { channelId := id
            amount := amount
            newSequenceNumber := newSeq
            newLocalBalance := newLocal
            newRemoteBalance := newRemote
            signature := sig
            timestamp := now }
        let c2 := { c with
          localBalance := newLocal
          remoteBalance := newRemote
          sequenceNumber := newSeq
          updatedAt := now }
        let row : PaymentRow :=
          { channelId := id
            amount := amount
            sequence := newSeq
            direction := .sent
            signature := sig
            timestamp := now }
        (.ok msg, s.putChannel id c2 (some row))

/-- Modelled from the spec: `processPayment(incoming)` (spec §4.2) —
requires the target channel to be `open`; fails with a sequence error
unless `incoming.newSequenceNumber > channel.sequenceNumber`; fails
with a capacity error unless
`incoming.newLocalBalance + incoming.newRemoteBalance == capacity`;
applies the update with the perspective swapped (the sender's
`newLocalBalance` becomes this side's `remoteBalance` and vice versa)
and persists the new state with a `received` ledger row. No signature
verification is performed (the spec's `processPayment` lists none, and
`manager.test.ts` 164–182 passes the literal string
`'mock-signature'`). -/
def processPayment (s : ManagerState) (p : PaymentMsg) (now : Int) :
    Except ChannelError Channel × ManagerState :=
  match findCh s.channels p.channelId with
  | none => (.error .notFoundError, s)
  | some c =>
      if c.state ≠ .opened then (.error .stateError, s)
      else if p.newSequenceNumber ≤ c.sequenceNumber then
        (.error .sequenceError, s)
      else if p.newLocalBalance + p.newRemoteBalance ≠ c.capacity then
        (.error .capacityError, s)
      else
        let c2 := { c with
          localBalance := p.newRemoteBalance
          remoteBalance := p.newLocalBalance
          sequenceNumber := p.newSequenceNumber
          updatedAt := now }
        let row : PaymentRow :=
          { channelId := p.channelId
            amount := p.amount
            sequence := p.newSequenceNumber
            direction := .received
            signature := p.signature
            timestamp := now }
        (.ok c2, s.putChannel p.channelId c2 (some row))

/-- Modelled from the spec: `closeChannel(id)` (spec §4.2) — requires
`open`; broadcasts the settlement transaction via the external
collaborator (its success is passed in as `broadcastOk`); transitions
to `closing` only after a successful broadcast, and on broadcast
failure surfaces a broadcast error with the channel left `open`. -/
def closeChannel (s : ManagerState) (id : Nat) (broadcastOk : Bool)
    (now : Int) : Except ChannelError Channel × ManagerState :=
  match findCh s.channels id with
  | none => (.error .notFoundError, s)
  | some c =>
      if c.state ≠ .opened then (.error .stateError, s)
      else if ¬broadcastOk then (.error .broadcastError, s)
      else
        let c2 := { c with state := .closing, updatedAt := now }
        (.ok c2, s.putChannel id c2 none)

/-- Modelled from the spec: `cancelChannel(id)` (spec §4.2) — requires
`pending`; marks the channel closed without any on-chain action. -/
def cancelChannel (s : ManagerState) (id : Nat) (now : Int) :
    Except ChannelError Channel × ManagerState :=
  match findCh s.channels id with
  | none => (.error .notFoundError, s)
  | some c =>
      if c.state ≠ .pending then (.error .stateError, s)
      else
        let c2 := { c with state := .closed, updatedAt := now }
        (.ok c2, s.putChannel id c2 none)

/-- Constructing a new manager over an existing store (a process
restart): the in-memory channel map is reloaded from the store's
channel table (spec §6: "Restart must reconstruct the exact
last-committed Channel and ledger state"). -/
def restartManager (s : ManagerState) : ManagerState :=
  { s with channels := s.store.channels }

end ChannelManager

/-- The states a `ChannelManager` can reach: a fresh manager over an
empty store, closed under every manager operation (each constructor
keeps the state an operation returns, whether it succeeded or
failed). -/
inductive Reachable : ManagerState → Prop where
  | init (cfg : Config) (lp pk : String) :
      Reachable (ManagerState.init cfg lp pk)
  | create {s} (rp rk : String) (cap now : Int) (lt : Option Int) :
      Reachable s →
      Reachable (ChannelManager.createChannel s rp rk cap now lt).2
  | accept {s} (id : Nat) (lp rp rk : String) (cap nlt now : Int) :
      Reachable s →
      Reachable (ChannelManager.acceptChannel s id lp rp rk cap nlt now).2
  | funding {s} (id : Nat) (txid : String) (oi now : Int) :
      Reachable s →
      Reachable (ChannelManager.setFundingTx s id txid oi now).2
  | openCh {s} (id : Nat) (now : Int) :
      Reachable s →
      Reachable (ChannelManager.openChannel s id now).2
  | pay {s} (id : Nat) (amount now : Int) :
      Reachable s →
      Reachable (ChannelManager.createPayment s id amount now).2
  | process {s} (p : PaymentMsg) (now : Int) :
      Reachable s →
      Reachable (ChannelManager.processPayment s p now).2
  | close {s} (id : Nat) (ok : Bool) (now : Int) :
      Reachable s →
      Reachable (ChannelManager.closeChannel s id ok now).2
  | cancel {s} (id : Nat) (now : Int) :
      Reachable s →
      Reachable (ChannelManager.cancelChannel s id now).2

/-! ## Multisig signing (modelled from the spec)

`multisig.js` is not part of the source tree given here; the signing
primitives are modelled from spec §4.1 with the cryptography
abstracted: the public key derived from a private key is an injective
function of it, the sighash preimage is the byte sequence binding the
transaction, the input index, the input's locking script and its value
(spec: "bound to the specific input's locking script and value"), and a
signature is modelled as the signer's public key together with the
exact preimage it signed, with the sighash-type byte `0x41` appended
(`multisig.test.ts` 113). Verification recomputes the preimage and
compares; it is a total boolean function, so it returns `false` on any
malformed signature rather than throwing. -/

/-- An unsigned transaction template, abstracted to the fields the
sighash covers. -/
structure Tx where
  version : Int
  inputs : List Int
  outputs : List Int
  lockTime : Int
  deriving DecidableEq, Repr

/-- Modelled from the spec: public-key derivation, abstracted to an
injective map from private keys. -/
def derivePub (priv : Int) : Int := priv

/-- Modelled from the spec: `createSighashPreimage(tx, inputIndex,
lockingScript, inputAmount)` — the exact sequence a signer hashes,
bound to the specific input's locking script and value (spec §4.1). -/
def createSighashPreimage (tx : Tx) (inputIndex : Nat)
    (lockingScript : List Int) (inputAmount : Int) : List Int :=
  tx.version :: Int.ofNat inputIndex :: inputAmount ::
    Int.ofNat lockingScript.length :: (lockingScript ++ tx.inputs ++
      tx.outputs ++ [tx.lockTime])

/-- Modelled from the spec: `signInput(tx, inputIndex, privateKey,
lockingScript, inputAmount)` — a signature over the sighash preimage
with the sighash-type byte appended; deterministic given the same
key and preimage (spec §4.1). -/
def signInput (tx : Tx) (inputIndex : Nat) (privateKey : Int)
    (lockingScript : List Int) (inputAmount : Int) : List Int :=
  derivePub privateKey ::
    (createSighashPreimage tx inputIndex lockingScript inputAmount ++ [65])

/-- Modelled from the spec: `verifySignature(tx, inputIndex, pubKey,
signature, lockingScript, inputAmount)` — pure boolean check that the
signature is the given public key's signature over this input's
sighash preimage; never throws on a malformed signature, returns
`false` (spec §4.1, §8). -/
def verifySignature (tx : Tx) (inputIndex : Nat) (pubKey : Int)
    (signature : List Int) (lockingScript : List Int)
    (inputAmount : Int) : Bool :=
  signature =
    pubKey ::
      (createSighashPreimage tx inputIndex lockingScript inputAmount ++ [65])

/-! ## Basic lemmas about the channel map -/

/-- The balance-conservation invariant of a single channel record
(spec §3): `localBalance + remoteBalance == capacity`. -/
def chInv (c : Channel) : Prop :=
  c.localBalance + c.remoteBalance = c.capacity

instance (c : Channel) : Decidable (chInv c) := by
  unfold chInv; infer_instance

/-- Every channel in a channel table satisfies the balance
invariant. -/
def invAll (l : List (Nat × Channel)) : Prop :=
  ∀ pr ∈ l, chInv pr.2

instance (l : List (Nat × Channel)) : Decidable (invAll l) := by
  unfold invAll; infer_instance

/-- The manager-wide balance invariant: every channel record, both in
the in-memory map and in the independently persisted store, satisfies
`localBalance + remoteBalance == capacity`. -/
def managerInv (s : ManagerState) : Prop :=
  invAll s.channels ∧ invAll s.store.channels

instance (s : ManagerState) : Decidable (managerInv s) := by
  unfold managerInv; infer_instance

/-! ## A concrete two-party scenario

The lifecycle of `manager.test.ts` / `integration.test.ts`: Alice
creates a channel of capacity 10000 under bounds 1000/100000, funds and
opens it, and pays Bob 1000; Bob runs the responder-side mirror. These
states serve as evaluation points for the theorems below. -/

def cfg0 : Config :=
  { minCapacity := 1000, maxCapacity := 100000, defaultLifetimeMs := 3600000 }

/-- Alice's fresh manager. -/
def sA0 : ManagerState := ManagerState.init cfg0 "alice" "alicePub"

/-- Alice after `createChannel('bob', bobPub, 10000)` (channel id 0). -/
def sA1 : ManagerState :=
  (ChannelManager.createChannel sA0 "bob" "bobPub" 10000 0 none).2

/-- Alice after `setFundingTx(0, 'funding-tx-123', 0)`. -/
def sA2 : ManagerState :=
  (ChannelManager.setFundingTx sA1 0 "funding-tx-123" 0 1).2

/-- Alice after `openChannel(0)`. -/
def sA3 : ManagerState :=
  (ChannelManager.openChannel sA2 0 2).2

/-- Alice's channel record once open. -/
def chA3 : Channel :=
  { id := 0
    localPeerId := "alice"
    remotePeerId := "bob"
    localPubKey := "alicePub"
    remotePubKey := "bobPub"
    state := .opened
    capacity := 10000
    localBalance := 10000
    remoteBalance := 0
    sequenceNumber := 0
    fundingTxId := some "funding-tx-123"
    fundingOutputIndex := some 0
    nLockTime := 3600000
    createdAt := 0
    updatedAt := 2 }

/-- Alice after `createPayment(0, 1000)`. -/
def sA4 : ManagerState :=
  (ChannelManager.createPayment sA3 0 1000 3).2

/-- The payment descriptor Alice's `createPayment(0, 1000)` returns. -/
def pmsg1 : PaymentMsg :=
  { channelId := 0
    amount := 1000
    newSequenceNumber := 1
    newLocalBalance := 9000
    newRemoteBalance := 1000
    signature := ChannelManager.mkSignature 0 1 9000 1000
    timestamp := 3 }

/-- Bob's fresh manager. -/
def sB0 : ManagerState := ManagerState.init cfg0 "bob" "bobPub"

/-- Bob after accepting Alice's channel proposal. -/
def sB1 : ManagerState :=
  (ChannelManager.acceptChannel sB0 0 "bob" "alice" "alicePub"
    10000 3600000 0).2

/-- Bob after `setFundingTx(0, 'funding-tx-123', 0)`. -/
def sB2 : ManagerState :=
  (ChannelManager.setFundingTx sB1 0 "funding-tx-123" 0 1).2

/-- Bob after `openChannel(0)`. -/
def sB3 : ManagerState :=
  (ChannelManager.openChannel sB2 0 2).2

/-- Bob's channel record once open. -/
def chB3 : Channel :=
  { id := 0
    localPeerId := "bob"
    remotePeerId := "alice"
    localPubKey := "bobPub"
    remotePubKey := "alicePub"
    state := .opened
    capacity := 10000
    localBalance := 0
    remoteBalance := 10000
    sequenceNumber := 0
    fundingTxId := some "funding-tx-123"
    fundingOutputIndex := some 0
    nLockTime := 3600000
    createdAt := 0
    updatedAt := 2 }

/-- Bob after processing Alice's payment descriptor. -/
def sB4 : ManagerState :=
  (ChannelManager.processPayment sB3 pmsg1 4).2

/-- Alice's channel record while still pending, before any funding
reference was attached. -/
def chA1 : Channel :=
  { id := 0
    localPeerId := "alice"
    remotePeerId := "bob"
    localPubKey := "alicePub"
    remotePubKey := "bobPub"
    state := .pending
    capacity := 10000
    localBalance := 10000
    remoteBalance := 0
    sequenceNumber := 0
    fundingTxId := none
    fundingOutputIndex := none
    nLockTime := 3600000
    createdAt := 0
    updatedAt := 0 }

/-- Bob's channel record after processing Alice's 1000-satoshi
payment: the mirror image of Alice's 9000/1000 split at sequence 1. -/
def chB4 : Channel :=
  { chB3 with
    localBalance := 1000
    remoteBalance := 9000
    sequenceNumber := 1
    updatedAt := 4 }

/-- A concrete transaction template for the multisig theorems. -/
def tx0 : Tx :=
  { version := 1, inputs := [7], outputs := [9000], lockTime := 0 }

theorem findCh_setCh_self (l : List (Nat × Channel)) (id : Nat)
    (c : Channel) : findCh (setCh l id c) id = some c := by
  induction l with
  | nil => simp [setCh, findCh]
  | cons hd tl ih =>
      by_cases h : hd.1 = id
      · simp [setCh, h, findCh]
      · simpa [setCh, h, findCh] using ih

theorem findCh_setCh_ne (l : List (Nat × Channel)) (id k : Nat)
    (c : Channel) (hne : k ≠ id) :
    findCh (setCh l id c) k = findCh l k := by
  induction l with
  | nil => simp [setCh, findCh, Ne.symm hne]
  | cons hd tl ih =>
      obtain ⟨k0, c0⟩ := hd
      by_cases h : k0 = id
      · subst h
        simp [setCh, findCh, Ne.symm hne, hne]
      · by_cases h2 : k0 = k
        · simp [setCh, findCh, h, h2, hne]
        · simp [setCh, findCh, h, h2, ih]

theorem invAll_setCh {l : List (Nat × Channel)} {c : Channel}
    (id : Nat) (hl : invAll l) (hc : chInv c) : invAll (setCh l id c) := by
  induction l with
  | nil =>
      intro pr hpr
      simp only [setCh, List.mem_singleton] at hpr
      simpa [hpr] using hc
  | cons hd tl ih =>
      obtain ⟨k0, c0⟩ := hd
      have hhd : chInv c0 := hl (k0, c0) (List.mem_cons_self _ _)
      have htl : invAll tl := fun pr hpr => hl pr (List.mem_cons_of_mem _ hpr)
      by_cases h : k0 = id
      · intro pr hpr
        simp only [setCh, h, if_true, eq_self_iff_true, List.mem_cons] at hpr
        rcases hpr with h1 | h1
        · simpa [h1] using hc
        · exact htl pr h1
      · intro pr hpr
        simp only [setCh, if_neg h, List.mem_cons] at hpr
        rcases hpr with h1 | h1
        · simpa [h1] using hhd
        · exact ih htl pr h1

theorem invAll_findCh {l : List (Nat × Channel)} {id : Nat} {c : Channel}
    (hl : invAll l) (hf : findCh l id = some c) : chInv c := by
  induction l with
  | nil => simp [findCh] at hf
  | cons hd tl ih =>
      obtain ⟨k0, c0⟩ := hd
      have htl : invAll tl := fun pr hpr => hl pr (List.mem_cons_of_mem _ hpr)
      by_cases h : k0 = id
      · have hhd : chInv c0 := hl (k0, c0) (List.mem_cons_self _ _)
        simp only [findCh, h, if_true, eq_self_iff_true,
          Option.some.injEq] at hf
        exact hf ▸ hhd
      · simp only [findCh, if_neg h] at hf
        exact ih htl hf

/-! ## Operation equations and inversions -/

/-- Equation: a `createPayment` whose guards all pass returns exactly
the descriptor and write-through the definition prescribes. -/
theorem createPayment_ok_eq (s : ManagerState) (id : Nat) (a now : Int)
    (c : Channel) (hf : findCh s.channels id = some c)
    (hst : c.state = ChannelState.opened) (hle : a ≤ c.localBalance) :
    ChannelManager.createPayment s id a now =
      (Except.ok
        { channelId := id
          amount := a
          newSequenceNumber := c.sequenceNumber + 1
          newLocalBalance := c.localBalance - a
          newRemoteBalance := c.remoteBalance + a
          signature := ChannelManager.mkSignature id (c.sequenceNumber + 1)
            (c.localBalance - a) (c.remoteBalance + a)
          timestamp := now },
       s.putChannel id
        { c with
          localBalance := c.localBalance - a
          remoteBalance := c.remoteBalance + a
          sequenceNumber := c.sequenceNumber + 1
          updatedAt := now }
        (some
          { channelId := id
            amount := a
            sequence := c.sequenceNumber + 1
            direction := Direction.sent
            signature := ChannelManager.mkSignature id (c.sequenceNumber + 1)
              (c.localBalance - a) (c.remoteBalance + a)
            timestamp := now })) := by
  simp [ChannelManager.createPayment, hf, hst, not_lt.mpr hle]

/-- Equation: a `processPayment` whose guards all pass applies the
perspective-swapped update and appends the `received` ledger row. -/
theorem processPayment_ok_eq (s : ManagerState) (p : PaymentMsg)
    (now : Int) (c : Channel)
    (hf : findCh s.channels p.channelId = some c)
    (hst : c.state = ChannelState.opened)
    (hseq : c.sequenceNumber < p.newSequenceNumber)
    (hcap : p.newLocalBalance + p.newRemoteBalance = c.capacity) :
    ChannelManager.processPayment s p now =
      (Except.ok
        { c with
          localBalance := p.newRemoteBalance
          remoteBalance := p.newLocalBalance
          sequenceNumber := p.newSequenceNumber
          updatedAt := now },
       s.putChannel p.channelId
        { c with
          localBalance := p.newRemoteBalance
          remoteBalance := p.newLocalBalance
          sequenceNumber := p.newSequenceNumber
          updatedAt := now }
        (some
          { channelId := p.channelId
            amount := p.amount
            sequence := p.newSequenceNumber
            direction := Direction.received
            signature := p.signature
            timestamp := now })) := by
  simp [ChannelManager.processPayment, hf, hst, not_le.mpr hseq, hcap]

/-- Inversion: a successful `createPayment` came from an open channel
with sufficient balance, and its outputs have the prescribed shape. -/
theorem createPayment_ok_inv (s : ManagerState) (id : Nat) (a now : Int)
    (msg : PaymentMsg) (s2 : ManagerState)
    (h : ChannelManager.createPayment s id a now = (Except.ok msg, s2)) :
    ∃ c, findCh s.channels id = some c ∧
      c.state = ChannelState.opened ∧ a ≤ c.localBalance ∧
      msg =
        { channelId := id
          amount := a
          newSequenceNumber := c.sequenceNumber + 1
          newLocalBalance := c.localBalance - a
          newRemoteBalance := c.remoteBalance + a
          signature := ChannelManager.mkSignature id (c.sequenceNumber + 1)
            (c.localBalance - a) (c.remoteBalance + a)
          timestamp := now } ∧
      s2 = s.putChannel id
        { c with
          localBalance := c.localBalance - a
          remoteBalance := c.remoteBalance + a
          sequenceNumber := c.sequenceNumber + 1
          updatedAt := now }
        (some
          { channelId := id
            amount := a
            sequence := c.sequenceNumber + 1
            direction := Direction.sent
            signature := ChannelManager.mkSignature id (c.sequenceNumber + 1)
              (c.localBalance - a) (c.remoteBalance + a)
            timestamp := now }) := by
  cases hf : findCh s.channels id with
  | none => simp [ChannelManager.createPayment, hf] at h
  | some c =>
      by_cases hst : c.state = ChannelState.opened
      · by_cases hbal : c.localBalance < a
        · simp [ChannelManager.createPayment, hf, hst, hbal] at h
        · rw [createPayment_ok_eq s id a now c hf hst (not_lt.mp hbal)] at h
          simp only [Prod.mk.injEq, Except.ok.injEq] at h
          exact ⟨c, rfl, hst, not_lt.mp hbal, h.1.symm, h.2.symm⟩
      · simp [ChannelManager.createPayment, hf, hst] at h

/-- Inversion: a successful `processPayment` came from an open channel,
with a strictly larger sequence and capacity-conserving balances, and
its outputs have the prescribed shape. -/
theorem processPayment_ok_inv (s : ManagerState) (p : PaymentMsg)
    (now : Int) (c2 : Channel) (s2 : ManagerState)
    (h : ChannelManager.processPayment s p now = (Except.ok c2, s2)) :
    ∃ c, findCh s.channels p.channelId = some c ∧
      c.state = ChannelState.opened ∧
      c.sequenceNumber < p.newSequenceNumber ∧
      p.newLocalBalance + p.newRemoteBalance = c.capacity ∧
      c2 =
        { c with
          localBalance := p.newRemoteBalance
          remoteBalance := p.newLocalBalance
          sequenceNumber := p.newSequenceNumber
          updatedAt := now } ∧
      s2 = s.putChannel p.channelId c2
        (some
          { channelId := p.channelId
            amount := p.amount
            sequence := p.newSequenceNumber
            direction := Direction.received
            signature := p.signature
            timestamp := now }) := by
  cases hf : findCh s.channels p.channelId with
  | none => simp [ChannelManager.processPayment, hf] at h
  | some c =>
      by_cases hst : c.state = ChannelState.opened
      · by_cases hseq : p.newSequenceNumber ≤ c.sequenceNumber
        · simp [ChannelManager.processPayment, hf, hst, hseq] at h
        · by_cases hcap : p.newLocalBalance + p.newRemoteBalance = c.capacity
          · rw [processPayment_ok_eq s p now c hf hst (not_le.mp hseq)
              hcap] at h
            simp only [Prod.mk.injEq, Except.ok.injEq] at h
            refine ⟨c, rfl, hst, not_le.mp hseq, hcap, h.1.symm, ?_⟩
            rw [← h.2, ← h.1]
          · simp [ChannelManager.processPayment, hf, hst, hseq, hcap] at h
      · simp [ChannelManager.processPayment, hf, hst] at h

/-! ## Claim theorems -/

/-- C4: for every open channel with sequence `s`, local balance `L`,
remote balance `R`, and every amount `a ≤ L`, `createPayment` returns
exactly `newSequenceNumber = s + 1`, `newLocalBalance = L - a`,
`newRemoteBalance = R + a` together with a signature, and persists a
record whose stored `sequenceNumber` is incremented by exactly 1. -/
theorem createPayment_success_spec (s : ManagerState) (id : Nat)
    (a now : Int) (c : Channel) (hf : s.getChannel id = some c)
    (hopen : c.state = ChannelState.opened) (hle : a ≤ c.localBalance) :
    (ChannelManager.createPayment s id a now).1 =
      Except.ok
        { channelId := id
          amount := a
          newSequenceNumber := c.sequenceNumber + 1
          newLocalBalance := c.localBalance - a
          newRemoteBalance := c.remoteBalance + a
          signature := ChannelManager.mkSignature id (c.sequenceNumber + 1)
            (c.localBalance - a) (c.remoteBalance + a)
          timestamp := now } ∧
    (ChannelManager.createPayment s id a now).2.getChannel id =
      some { c with
        localBalance := c.localBalance - a
        remoteBalance := c.remoteBalance + a
        sequenceNumber := c.sequenceNumber + 1
        updatedAt := now } := by
  have hf' : findCh s.channels id = some c := hf
  have hnl : ¬c.localBalance < a := not_lt.mpr hle
  constructor
  · simp [ChannelManager.createPayment, hf', hopen, hnl]
  · simp [ChannelManager.createPayment, hf', hopen, hnl,
      ManagerState.getChannel, ManagerState.putChannel, findCh_setCh_self]

/-- C4 witness: Alice's open channel (capacity 10000, sequence 0) paying
1000 yields sequence 1 and balances 9000/1000, persisted. -/
theorem createPayment_success_spec_witness :
    (ChannelManager.createPayment sA3 0 1000 3).1 =
      Except.ok
        { channelId := 0
          amount := 1000
          newSequenceNumber := chA3.sequenceNumber + 1
          newLocalBalance := chA3.localBalance - 1000
          newRemoteBalance := chA3.remoteBalance + 1000
          signature := ChannelManager.mkSignature 0 (chA3.sequenceNumber + 1)
            (chA3.localBalance - 1000) (chA3.remoteBalance + 1000)
          timestamp := 3 } ∧
    (ChannelManager.createPayment sA3 0 1000 3).2.getChannel 0 =
      some { chA3 with
        localBalance := chA3.localBalance - 1000
        remoteBalance := chA3.remoteBalance + 1000
        sequenceNumber := chA3.sequenceNumber + 1
        updatedAt := 3 } :=
  createPayment_success_spec sA3 0 1000 3 chA3 (by decide) (by decide)
    (by decide)

/-- C5: a `createPayment` whose amount strictly exceeds the open
channel's local balance fails with the insufficient-balance error and
leaves the manager — in particular the channel's state, balances and
sequence number — exactly as before. -/
theorem createPayment_insufficient_balance (s : ManagerState) (id : Nat)
    (a now : Int) (c : Channel) (hf : s.getChannel id = some c)
    (hopen : c.state = ChannelState.opened) (hgt : c.localBalance < a) :
    ChannelManager.createPayment s id a now =
      (Except.error ChannelError.insufficientBalanceError, s) ∧
    (ChannelManager.createPayment s id a now).2.getChannel id = some c := by
  have hf' : findCh s.channels id = some c := hf
  constructor
  · simp [ChannelManager.createPayment, hf', hopen, hgt]
  · simp [ChannelManager.createPayment, hf', hopen, hgt,
      ManagerState.getChannel]

/-- C5 witness: paying 15000 from Alice's open channel holding 10000
fails with the insufficient-balance error and changes nothing. -/
theorem createPayment_insufficient_balance_witness :
    ChannelManager.createPayment sA3 0 15000 3 =
      (Except.error ChannelError.insufficientBalanceError, sA3) ∧
    (ChannelManager.createPayment sA3 0 15000 3).2.getChannel 0 =
      some chA3 :=
  createPayment_insufficient_balance sA3 0 15000 3 chA3 (by decide)
    (by decide) (by decide)

/-- Helper: a successful `createChannel` hands out the manager's id
counter and advances it. -/
theorem createChannel_ok_parts (s : ManagerState) (rp rk : String)
    (cap now : Int) (lt : Option Int) (c : Channel)
    (hc : (ChannelManager.createChannel s rp rk cap now lt).1 =
      Except.ok c) :
    c.id = s.nextId ∧
    (ChannelManager.createChannel s rp rk cap now lt).2.nextId =
      s.nextId + 1 := by
  by_cases hb : cap < s.cfg.minCapacity ∨ s.cfg.maxCapacity < cap
  · simp [ChannelManager.createChannel, hb] at hc
  · simp only [ChannelManager.createChannel, if_neg hb,
      Except.ok.injEq] at hc
    constructor
    · rw [← hc]
    · simp [ChannelManager.createChannel, if_neg hb]

/-- C6: `createChannel` succeeds exactly when
`minCapacity ≤ capacity ≤ maxCapacity`, failing with the capacity error
(and leaving the manager unchanged) otherwise; on success it persists a
`pending` channel with `localBalance = capacity`, `remoteBalance = 0`,
`sequenceNumber = 0`; ids of consecutively created channels differ. -/
theorem createChannel_spec (s : ManagerState) (rp rk rp2 rk2 : String)
    (cap cap2 now now2 : Int) (lt lt2 : Option Int) :
    ((∃ c, (ChannelManager.createChannel s rp rk cap now lt).1 =
        Except.ok c) ↔
      (s.cfg.minCapacity ≤ cap ∧ cap ≤ s.cfg.maxCapacity)) ∧
    (¬(s.cfg.minCapacity ≤ cap ∧ cap ≤ s.cfg.maxCapacity) →
      ChannelManager.createChannel s rp rk cap now lt =
        (Except.error ChannelError.capacityError, s)) ∧
    (∀ c, (ChannelManager.createChannel s rp rk cap now lt).1 =
        Except.ok c →
      c.state = ChannelState.pending ∧ c.capacity = cap ∧
      c.localBalance = cap ∧ c.remoteBalance = 0 ∧
      c.sequenceNumber = 0 ∧
      (ChannelManager.createChannel s rp rk cap now lt).2.getChannel c.id =
        some c) ∧
    (∀ c c2,
      (ChannelManager.createChannel s rp rk cap now lt).1 = Except.ok c →
      (ChannelManager.createChannel
        (ChannelManager.createChannel s rp rk cap now lt).2
        rp2 rk2 cap2 now2 lt2).1 = Except.ok c2 →
      c.id ≠ c2.id) := by
  by_cases hb : cap < s.cfg.minCapacity ∨ s.cfg.maxCapacity < cap
  · have hnb : ¬(s.cfg.minCapacity ≤ cap ∧ cap ≤ s.cfg.maxCapacity) := by
      rcases hb with h | h
      · intro hc; exact absurd hc.1 (not_le.mpr h)
      · intro hc; exact absurd hc.2 (not_le.mpr h)
    refine ⟨?_, ?_, ?_, ?_⟩
    · constructor
      · intro hc
        rcases hc with ⟨c, hc⟩
        simp [ChannelManager.createChannel, hb] at hc
      · intro hc; exact absurd hc hnb
    · intro _; simp [ChannelManager.createChannel, hb]
    · intro c hc
      simp [ChannelManager.createChannel, hb] at hc
    · intro c c2 hc _
      simp [ChannelManager.createChannel, hb] at hc
  · have hok : s.cfg.minCapacity ≤ cap ∧ cap ≤ s.cfg.maxCapacity := by
      constructor
      · exact not_lt.mp fun h => hb (Or.inl h)
      · exact not_lt.mp fun h => hb (Or.inr h)
    refine ⟨?_, ?_, ?_, ?_⟩
    · constructor
      · intro _; exact hok
      · intro _
        apply Exists.intro
        unfold ChannelManager.createChannel
        rw [if_neg hb]
    · intro hc; exact absurd hok hc
    · intro c hc
      simp only [ChannelManager.createChannel, if_neg hb,
        Except.ok.injEq] at hc
      refine ⟨?_, ?_, ?_, ?_, ?_, ?_⟩ <;>
        simp [← hc, ChannelManager.createChannel, if_neg hb,
          ManagerState.getChannel, ManagerState.putChannel, findCh_setCh_self]
    · intro c c2 hc hc2
      have h1 := createChannel_ok_parts s rp rk cap now lt c hc
      have h2 := createChannel_ok_parts _ rp2 rk2 cap2 now2 lt2 c2 hc2
      rw [h1.1, h2.1, h1.2]
      exact Nat.ne_of_lt (Nat.lt_succ_self _)

/-- C2: `processPayment` succeeds only if the incoming sequence number
strictly exceeds the channel's; an open channel rejects any incoming
sequence `≤` current with the sequence error and is left unchanged; and
the same incoming payment, accepted once, fails with the sequence error
(again leaving the state unchanged) when applied a second time. -/
theorem processPayment_sequence_spec (s : ManagerState) (p : PaymentMsg)
    (now now2 : Int) (c : Channel)
    (hf : s.getChannel p.channelId = some c) :
    (∀ c2 s2, ChannelManager.processPayment s p now = (Except.ok c2, s2) →
      c.sequenceNumber < p.newSequenceNumber) ∧
    (c.state = ChannelState.opened →
      p.newSequenceNumber ≤ c.sequenceNumber →
      ChannelManager.processPayment s p now =
        (Except.error ChannelError.sequenceError, s)) ∧
    (∀ c2 s2, ChannelManager.processPayment s p now = (Except.ok c2, s2) →
      ChannelManager.processPayment s2 p now2 =
        (Except.error ChannelError.sequenceError, s2)) := by
  have hf' : findCh s.channels p.channelId = some c := hf
  refine ⟨?_, ?_, ?_⟩
  · intro c2 s2 h
    obtain ⟨c', hfc, _, hseq, _, _, _⟩ := processPayment_ok_inv s p now c2 s2 h
    have hcc : c' = c := Option.some.inj (hfc.symm.trans hf')
    rw [← hcc]
    exact hseq
  · intro hst hseq
    simp [ChannelManager.processPayment, hf', hst, hseq]
  · intro c2 s2 h
    obtain ⟨c', _, hst, _, _, hc2, hs2⟩ := processPayment_ok_inv s p now c2 s2 h
    subst hc2
    subst hs2
    simp [ChannelManager.processPayment, ManagerState.putChannel,
      findCh_setCh_self, hst]

/-- C2 witness: Bob's open channel at sequence 0 accepts Alice's
sequence-1 descriptor once; the exact same descriptor applied to the
resulting state fails with the sequence error and changes nothing. -/
theorem processPayment_sequence_spec_witness :
    (∀ c2 s2,
      ChannelManager.processPayment sB3 pmsg1 4 = (Except.ok c2, s2) →
      chB3.sequenceNumber < pmsg1.newSequenceNumber) ∧
    (chB3.state = ChannelState.opened →
      pmsg1.newSequenceNumber ≤ chB3.sequenceNumber →
      ChannelManager.processPayment sB3 pmsg1 4 =
        (Except.error ChannelError.sequenceError, sB3)) ∧
    (∀ c2 s2,
      ChannelManager.processPayment sB3 pmsg1 4 = (Except.ok c2, s2) →
      ChannelManager.processPayment s2 pmsg1 5 =
        (Except.error ChannelError.sequenceError, s2)) :=
  processPayment_sequence_spec sB3 pmsg1 4 5 chB3 (by decide)

/-- C3: when a descriptor produced by one party's `createPayment` is
accepted by the counterparty's `processPayment`, the receiver's
persisted record holds `localBalance = newRemoteBalance` and
`remoteBalance = newLocalBalance` (the perspective swap), and both
parties' records carry the same sequence number. -/
theorem payment_mirrored (sS sR : ManagerState) (id : Nat)
    (a nowS nowR : Int) (msg : PaymentMsg) (s2 : ManagerState)
    (cR2 : Channel) (sR2 : ManagerState)
    (h1 : ChannelManager.createPayment sS id a nowS = (Except.ok msg, s2))
    (h2 : ChannelManager.processPayment sR msg nowR = (Except.ok cR2, sR2)) :
    cR2.localBalance = msg.newRemoteBalance ∧
    cR2.remoteBalance = msg.newLocalBalance ∧
    sR2.getChannel msg.channelId = some cR2 ∧
    (∀ cS2, s2.getChannel id = some cS2 →
      cR2.sequenceNumber = cS2.sequenceNumber) := by
  obtain ⟨cS, hfS, _, _, hmsg, hs2⟩ := createPayment_ok_inv sS id a nowS msg s2 h1
  obtain ⟨cR, hfR, _, _, _, hcR2, hsR2⟩ := processPayment_ok_inv sR msg nowR cR2 sR2 h2
  refine ⟨?_, ?_, ?_, ?_⟩
  · rw [hcR2]
  · rw [hcR2]
  · subst hsR2
    simp [ManagerState.getChannel, ManagerState.putChannel, findCh_setCh_self]
  · intro cS2 hget
    subst hs2
    simp only [ManagerState.getChannel, ManagerState.putChannel,
      findCh_setCh_self, Option.some.injEq] at hget
    rw [hcR2, ← hget, hmsg]

/-- C3 witness: Alice's 1000-satoshi payment descriptor, processed by
Bob, leaves the two persisted records mirrored at sequence 1. -/
theorem payment_mirrored_witness :
    chB4.localBalance = pmsg1.newRemoteBalance ∧
    chB4.remoteBalance = pmsg1.newLocalBalance ∧
    sB4.getChannel pmsg1.channelId = some chB4 ∧
    (∀ cS2, sA4.getChannel 0 = some cS2 →
      chB4.sequenceNumber = cS2.sequenceNumber) :=
  payment_mirrored sA3 sB3 0 1000 3 4 pmsg1 sA4 chB4 sB4 (by rfl)
    (by rfl)

/-- C10: for an open channel, an incoming payment whose sequence
strictly advances and whose balances sum to the capacity is accepted
whatever its `signature` string and whatever its stated `amount`: no
signature verification or amount-consistency check is performed, and
the resulting channel record does not depend on either field. -/
theorem processPayment_ignores_signature (s : ManagerState)
    (p : PaymentMsg) (now : Int) (c : Channel)
    (hf : s.getChannel p.channelId = some c)
    (hst : c.state = ChannelState.opened)
    (hseq : c.sequenceNumber < p.newSequenceNumber)
    (hcap : p.newLocalBalance + p.newRemoteBalance = c.capacity) :
    ∀ (sig : String) (amt : Int),
      (ChannelManager.processPayment s
          { p with signature := sig, amount := amt } now).1 =
        Except.ok
          { c with
            localBalance := p.newRemoteBalance
            remoteBalance := p.newLocalBalance
            sequenceNumber := p.newSequenceNumber
            updatedAt := now } := by
  intro sig amt
  rw [processPayment_ok_eq s { p with signature := sig, amount := amt }
    now c hf hst hseq hcap]

/-- C10 witness: Bob's open channel accepts a descriptor carrying the
arbitrary signature string `'mock-signature'` and a stated amount (123)
inconsistent with the 1000-satoshi balance shift. -/
theorem processPayment_ignores_signature_witness :
    (ChannelManager.processPayment sB3
        { pmsg1 with signature := "mock-signature", amount := 123 } 9).1 =
      Except.ok
        { chB3 with
          localBalance := pmsg1.newRemoteBalance
          remoteBalance := pmsg1.newLocalBalance
          sequenceNumber := pmsg1.newSequenceNumber
          updatedAt := 9 } :=
  processPayment_ignores_signature sB3 pmsg1 9 chB3 (by decide) (by decide)
    (by decide) (by decide) "mock-signature" 123

/-- C1: the balance-conservation invariant
`localBalance + remoteBalance == capacity` — holding of every record in
a manager's map and its independently persisted store — is preserved by
`createChannel`, `acceptChannel`, `createPayment` and `processPayment`
(whether they succeed or fail), and `processPayment` rejects with the
capacity error any otherwise-valid incoming payment whose
`newLocalBalance + newRemoteBalance` differs from the channel's
capacity, leaving the state unchanged. -/
theorem balance_invariant_preserved (s : ManagerState)
    (h : managerInv s) :
    (∀ rp rk cap now lt,
      managerInv (ChannelManager.createChannel s rp rk cap now lt).2) ∧
    (∀ id lp rp rk cap nlt now,
      managerInv
        (ChannelManager.acceptChannel s id lp rp rk cap nlt now).2) ∧
    (∀ id a now,
      managerInv (ChannelManager.createPayment s id a now).2) ∧
    (∀ p now,
      managerInv (ChannelManager.processPayment s p now).2) ∧
    (∀ (p : PaymentMsg) (now : Int) (c : Channel),
      s.getChannel p.channelId = some c →
      c.state = ChannelState.opened →
      c.sequenceNumber < p.newSequenceNumber →
      p.newLocalBalance + p.newRemoteBalance ≠ c.capacity →
      ChannelManager.processPayment s p now =
        (Except.error ChannelError.capacityError, s)) := by
  refine ⟨?_, ?_, ?_, ?_, ?_⟩
  · intro rp rk cap now lt
    by_cases hb : cap < s.cfg.minCapacity ∨ s.cfg.maxCapacity < cap
    · simpa [ChannelManager.createChannel, hb] using h
    · have hc2 : chInv
          { id := s.nextId, localPeerId := s.localPeerId,
            remotePeerId := rp, localPubKey := s.publicKey,
            remotePubKey := rk, state := ChannelState.pending,
            capacity := cap, localBalance := cap, remoteBalance := 0,
            sequenceNumber := 0, fundingTxId := none,
            fundingOutputIndex := none,
            nLockTime := now + lt.getD s.cfg.defaultLifetimeMs,
            createdAt := now, updatedAt := now } := by
        simp [chInv]
      simp only [ChannelManager.createChannel, if_neg hb]
      exact ⟨invAll_setCh _ h.1 hc2, invAll_setCh _ h.2 hc2⟩
  · intro id lp rp rk cap nlt now
    have hc2 : chInv
        { id := id, localPeerId := lp, remotePeerId := rp,
          localPubKey := s.publicKey, remotePubKey := rk,
          state := ChannelState.pending, capacity := cap,
          localBalance := 0, remoteBalance := cap, sequenceNumber := 0,
          fundingTxId := none, fundingOutputIndex := none,
          nLockTime := nlt, createdAt := now, updatedAt := now } := by
      simp [chInv]
    exact ⟨invAll_setCh _ h.1 hc2, invAll_setCh _ h.2 hc2⟩
  · intro id a now
    cases hf : findCh s.channels id with
    | none => simpa [ChannelManager.createPayment, hf] using h
    | some c =>
        by_cases hst : c.state = ChannelState.opened
        · by_cases hbal : c.localBalance < a
          · simpa [ChannelManager.createPayment, hf, hst, hbal] using h
          · have hc := invAll_findCh h.1 hf
            have hc2 : chInv
                { c with
                  localBalance := c.localBalance - a
                  remoteBalance := c.remoteBalance + a
                  sequenceNumber := c.sequenceNumber + 1
                  updatedAt := now } := by
              simp [chInv] at hc ⊢
              omega
            rw [createPayment_ok_eq s id a now c hf hst (not_lt.mp hbal)]
            exact ⟨invAll_setCh _ h.1 hc2, invAll_setCh _ h.2 hc2⟩
        · simpa [ChannelManager.createPayment, hf, hst] using h
  · intro p now
    cases hf : findCh s.channels p.channelId with
    | none => simpa [ChannelManager.processPayment, hf] using h
    | some c =>
        by_cases hst : c.state = ChannelState.opened
        · by_cases hseq : p.newSequenceNumber ≤ c.sequenceNumber
          · simpa [ChannelManager.processPayment, hf, hst, hseq] using h
          · by_cases hcap :
                p.newLocalBalance + p.newRemoteBalance = c.capacity
            · have hc2 : chInv
                  { c with
                    localBalance := p.newRemoteBalance
                    remoteBalance := p.newLocalBalance
                    sequenceNumber := p.newSequenceNumber
                    updatedAt := now } := by
                simp [chInv]
                omega
              rw [processPayment_ok_eq s p now c hf hst
                (not_le.mp hseq) hcap]
              exact ⟨invAll_setCh _ h.1 hc2, invAll_setCh _ h.2 hc2⟩
            · simpa [ChannelManager.processPayment, hf, hst, hseq, hcap]
                using h
        · simpa [ChannelManager.processPayment, hf, hst] using h
  · intro p now c hf hst hseq hcap
    have hf' : findCh s.channels p.channelId = some c := hf
    simp [ChannelManager.processPayment, hf', hst, not_le.mpr hseq, hcap]

/-- C1 witness: Bob's open-channel state satisfies the invariant on
both the map and the store, and so do the states each operation
produces from it. -/
theorem balance_invariant_preserved_witness :
    (∀ rp rk cap now lt,
      managerInv (ChannelManager.createChannel sB3 rp rk cap now lt).2) ∧
    (∀ id lp rp rk cap nlt now,
      managerInv
        (ChannelManager.acceptChannel sB3 id lp rp rk cap nlt now).2) ∧
    (∀ id a now,
      managerInv (ChannelManager.createPayment sB3 id a now).2) ∧
    (∀ p now,
      managerInv (ChannelManager.processPayment sB3 p now).2) ∧
    (∀ (p : PaymentMsg) (now : Int) (c : Channel),
      sB3.getChannel p.channelId = some c →
      c.state = ChannelState.opened →
      c.sequenceNumber < p.newSequenceNumber →
      p.newLocalBalance + p.newRemoteBalance ≠ c.capacity →
      ChannelManager.processPayment sB3 p now =
        (Except.error ChannelError.capacityError, sB3)) :=
  balance_invariant_preserved sB3 (by decide)

/-- C7 counterexample: the claim says `openChannel` requires a funding
reference and fails with a state error otherwise. On Alice's freshly
created pending channel, on which `setFundingTx` was never called (its
`fundingTxId` is still `none`), `openChannel` does not fail — it
transitions the channel to `open` (exactly the run of
`manager.test.ts` 131–135). -/
theorem openChannel_no_funding_counterexample :
    (sA1.getChannel 0).map Channel.fundingTxId = some none ∧
    (sA1.getChannel 0).map Channel.state = some ChannelState.pending ∧
    (ChannelManager.openChannel sA1 0 2).1 ≠
      Except.error ChannelError.stateError ∧
    ((ChannelManager.openChannel sA1 0 2).2.getChannel 0).map
      Channel.state = some ChannelState.opened := by
  refine ⟨by decide, by decide, ?_, by decide⟩
  decide

/-- C7 (amended): `openChannel(id)` transitions an existing channel to
`open` exactly when it is in state `pending`, whether or not a funding
reference is present; for a channel in any other state — including
re-opening an already-open channel — it fails with the state error and
leaves the record (indeed the whole manager state) unchanged. -/
theorem openChannel_state_spec (s : ManagerState) (id : Nat) (now : Int)
    (c : Channel) (hf : s.getChannel id = some c) :
    (c.state = ChannelState.pending →
      ChannelManager.openChannel s id now =
        (Except.ok { c with state := ChannelState.opened, updatedAt := now },
         s.putChannel id
           { c with state := ChannelState.opened, updatedAt := now }
           none)) ∧
    (c.state ≠ ChannelState.pending →
      ChannelManager.openChannel s id now =
        (Except.error ChannelError.stateError, s) ∧
      (ChannelManager.openChannel s id now).2.getChannel id = some c) := by
  have hf' : findCh s.channels id = some c := hf
  constructor
  · intro hp
    simp [ChannelManager.openChannel, hf', hp]
  · intro hp
    refine ⟨?_, ?_⟩
    · simp [ChannelManager.openChannel, hf', hp]
    · simp [ChannelManager.openChannel, hf', hp, ManagerState.getChannel]

/-- C7 witness: Alice's pending, unfunded channel opens successfully;
once open, re-opening it is rejected with the state error and the
record is unchanged. -/
theorem openChannel_state_spec_witness :
    ((chA1.state = ChannelState.pending →
      ChannelManager.openChannel sA1 0 2 =
        (Except.ok
           { chA1 with state := ChannelState.opened, updatedAt := 2 },
         sA1.putChannel 0
           { chA1 with state := ChannelState.opened, updatedAt := 2 }
           none)) ∧
     (chA1.state ≠ ChannelState.pending →
      ChannelManager.openChannel sA1 0 2 =
        (Except.error ChannelError.stateError, sA1) ∧
      (ChannelManager.openChannel sA1 0 2).2.getChannel 0 = some chA1)) ∧
    ((chA3.state = ChannelState.pending →
      ChannelManager.openChannel sA3 0 9 =
        (Except.ok
           { chA3 with state := ChannelState.opened, updatedAt := 9 },
         sA3.putChannel 0
           { chA3 with state := ChannelState.opened, updatedAt := 9 }
           none)) ∧
     (chA3.state ≠ ChannelState.pending →
      ChannelManager.openChannel sA3 0 9 =
        (Except.error ChannelError.stateError, sA3) ∧
      (ChannelManager.openChannel sA3 0 9).2.getChannel 0 = some chA3)) :=
  ⟨openChannel_state_spec sA1 0 2 chA1 (by decide),
   openChannel_state_spec sA3 0 9 chA3 (by decide)⟩

/-- C8: verifying the signature `signInput` produces under `keyA`
against `keyA`'s public key succeeds for every transaction, input
index, locking script and input amount; a signature produced under a
different key fails to verify, as does any malformed signature (one not
produced by `signInput` for this input under any key) — `verifySignature`
is a total boolean function and never throws. -/
theorem verifySignature_roundtrip (tx : Tx) (i : Nat)
    (script : List Int) (amt : Int) (keyA keyB : Int)
    (hk : keyB ≠ keyA) :
    verifySignature tx i (derivePub keyA)
      (signInput tx i keyA script amt) script amt = true ∧
    verifySignature tx i (derivePub keyA)
      (signInput tx i keyB script amt) script amt = false ∧
    (∀ sig, (∀ k, sig ≠ signInput tx i k script amt) →
      verifySignature tx i (derivePub keyA) sig script amt = false) := by
  refine ⟨?_, ?_, ?_⟩
  · simp [verifySignature, signInput]
  · simp [verifySignature, signInput, derivePub, hk]
  · intro sig hsig
    by_contra hv
    rw [Bool.not_eq_false] at hv
    simp only [verifySignature, decide_eq_true_eq] at hv
    exact hsig keyA hv

/-- C8 witness: a concrete round trip under key 5 verifies; the
signature under key 7 is rejected against key 5's public key, as is a
junk byte string. -/
theorem verifySignature_roundtrip_witness :
    (7 : Int) ≠ 5 ∧
    (verifySignature tx0 0 (derivePub 5)
      (signInput tx0 0 5 [82] 10000) [82] 10000 = true ∧
    verifySignature tx0 0 (derivePub 5)
      (signInput tx0 0 7 [82] 10000) [82] 10000 = false ∧
    (∀ sig, (∀ k, sig ≠ signInput tx0 0 k [82] 10000) →
      verifySignature tx0 0 (derivePub 5) sig [82] 10000 = false)) :=
  ⟨by decide, verifySignature_roundtrip tx0 0 [82] 10000 5 7 (by decide)⟩

/-- Helper: on every reachable manager state the in-memory channel map
coincides with the store's channel table — every operation writes
through to both atomically. -/
theorem mirror_of_reachable {s : ManagerState} (h : Reachable s) :
    s.channels = s.store.channels := by
  induction h with
  | init cfg lp pk => rfl
  | create rp rk cap now lt hs ih =>
      unfold ChannelManager.createChannel
      split <;> simp [ManagerState.putChannel, ih]
  | accept id lp rp rk cap nlt now hs ih =>
      simp [ChannelManager.acceptChannel, ManagerState.putChannel, ih]
  | funding id txid oi now hs ih =>
      unfold ChannelManager.setFundingTx
      repeat' split
      all_goals simp [ManagerState.putChannel, ih]
  | openCh id now hs ih =>
      unfold ChannelManager.openChannel
      repeat' split
      all_goals simp [ManagerState.putChannel, ih]
  | pay id amount now hs ih =>
      unfold ChannelManager.createPayment
      repeat' split
      all_goals simp [ManagerState.putChannel, ih]
  | process p now hs ih =>
      unfold ChannelManager.processPayment
      repeat' split
      all_goals simp [ManagerState.putChannel, ih]
  | close id ok now hs ih =>
      unfold ChannelManager.closeChannel
      repeat' split
      all_goals simp [ManagerState.putChannel, ih]
  | cancel id now hs ih =>
      unfold ChannelManager.cancelChannel
      repeat' split
      all_goals simp [ManagerState.putChannel, ih]

/-- C9: constructing a new manager over the store a reachable manager
state left behind (a restart) reconstructs that manager state exactly —
in particular every channel id maps to an identical record (same state,
balances, sequence number) — and the restarted manager continues to
operate identically (its next `createPayment` behaves exactly as the
original's would, advancing the sequence from the reconstructed
value). -/
theorem restart_reconstructs (s : ManagerState) (h : Reachable s) :
    ChannelManager.restartManager s = s ∧
    (∀ id, (ChannelManager.restartManager s).getChannel id =
      s.getChannel id) ∧
    (∀ id a now,
      ChannelManager.createPayment
        (ChannelManager.restartManager s) id a now =
        ChannelManager.createPayment s id a now) := by
  have hm := mirror_of_reachable h
  have h1 : ChannelManager.restartManager s = s := by
    obtain ⟨cfg, lp, pk, ni, chs, st⟩ := s
    simp only at hm
    simp [ChannelManager.restartManager, hm]
  exact ⟨h1, fun id => by rw [h1], fun id a now => by rw [h1]⟩

/-- C9 witness: Alice's state after create → fund → open → pay-1000 is
reachable, and restarting over its store reconstructs it exactly. -/
theorem restart_reconstructs_witness :
    ChannelManager.restartManager sA4 = sA4 ∧
    (∀ id, (ChannelManager.restartManager sA4).getChannel id =
      sA4.getChannel id) ∧
    (∀ id a now,
      ChannelManager.createPayment
        (ChannelManager.restartManager sA4) id a now =
        ChannelManager.createPayment sA4 id a now) :=
  restart_reconstructs sA4
    (Reachable.pay 0 1000 3
      (Reachable.openCh 0 2
        (Reachable.funding 0 "funding-tx-123" 0 1
          (Reachable.create "bob" "bobPub" 10000 0 none
            (Reachable.init cfg0 "alice" "alicePub")))))

/-- C6 witness: capacity 10000 within bounds 1000/100000 succeeds with
the documented pending record; 500 is rejected with the capacity error;
two consecutive creations yield distinct ids. -/
theorem createChannel_spec_witness :
    ((∃ c, (ChannelManager.createChannel sA0 "bob" "bobPub" 10000 0 none).1 =
        Except.ok c) ↔
      (sA0.cfg.minCapacity ≤ 10000 ∧ (10000 : Int) ≤ sA0.cfg.maxCapacity)) ∧
    (¬(sA0.cfg.minCapacity ≤ 500 ∧ (500 : Int) ≤ sA0.cfg.maxCapacity) →
      ChannelManager.createChannel sA0 "bob" "bobPub" 500 0 none =
        (Except.error ChannelError.capacityError, sA0)) := by
  have h1 := createChannel_spec sA0 "bob" "bobPub" "bob" "bobPub"
    10000 10000 0 0 none none
  have h2 := createChannel_spec sA0 "bob" "bobPub" "bob" "bobPub"
    500 500 0 0 none none
  exact ⟨h1.1, h2.2.1⟩

end BsvChannels
